import Mathlib

/-!
Verification of the traefik-authhack reverse-proxy filter against its
specification.  The Go sources (`authhack.go`, `encodedAuth.go`, the
request-query wrapper) are shallowly embedded below: requests, the
configuration record and the response writer become Lean structures, and
the filter pipeline (`ServeHTTP` and its extraction helpers) becomes a
pure function from a configuration and a request to an outcome
(a response plus an optionally forwarded request).
-/

namespace AuthHack

/-! ## Credential codec (`encodedAuth.go`) -/

/-- The `Basic ` scheme prefix (`basicPrefix` in the source). -/
def basicPrefix : String := "Basic "

/-- Character list of the scheme prefix, used by the stripping loop. -/
def basicData : List Char := basicPrefix.data

/-- One iteration bound per input character is enough for the Go loop
`for t := strings.TrimPrefix(...); t != encodedAuth; ...` which strips a
six-character prefix each round; the fuel argument makes the recursion
structural so that concrete inputs evaluate inside the kernel. -/
def stripBasicAux : Nat → List Char → List Char
  | 0, l => l
  | fuel + 1, l => if basicData <+: l then stripBasicAux fuel (l.drop 6) else l

/-- `newEncodedAuthWithoutPrefix`: repeatedly strip a leading `Basic `
until none remains. -/
def newEncodedAuthWithoutPrefix (s : String) : String :=
  ⟨stripBasicAux s.data.length s.data⟩

/-! UTF-8 bytes of a string, modelling Go's `[]byte(s)` conversion. -/

/-- UTF-8 encoding of a single scalar value, as byte values. -/
def utf8Bytes (c : Char) : List Nat :=
  let n := c.toNat
  if n < 128 then [n]
  else if n < 2048 then [192 + n / 64, 128 + n % 64]
  else if n < 65536 then [224 + n / 4096, 128 + (n / 64) % 64, 128 + n % 64]
  else [240 + n / 262144, 128 + (n / 4096) % 64, 128 + (n / 64) % 64, 128 + n % 64]

/-- The byte sequence of a string (Go `[]byte(s)`). -/
def strBytes (s : String) : List Nat := s.data.flatMap utf8Bytes

/-! Standard base64 (`encoding/base64` `StdEncoding`). -/

/-- The standard base64 alphabet. -/
def base64Table : List Char :=
  "ABCDEFGHIJKLMNOPQRSTUVWXYZabcdefghijklmnopqrstuvwxyz0123456789+/".data

/-- Character for a 6-bit group. -/
def b64char (n : Nat) : Char := base64Table.getD n 'A'

/-- Base64 encoding with `=` padding, three input bytes per four output
characters. -/
def base64Chunks : List Nat → List Char
  | b1 :: b2 :: b3 :: rest =>
      b64char (b1 / 4) :: b64char ((b1 % 4) * 16 + b2 / 16) ::
        b64char ((b2 % 16) * 4 + b3 / 64) :: b64char (b3 % 64) :: base64Chunks rest
  | [b1, b2] => [b64char (b1 / 4), b64char ((b1 % 4) * 16 + b2 / 16), b64char ((b2 % 16) * 4), '=']
  | [b1] => [b64char (b1 / 4), b64char ((b1 % 4) * 16), '=', '=']
  | [] => []

/-- `encodeAuthWithoutPrefix`: base64 of `username + ":" + password`. -/
def encodeAuthWithoutPrefix (username password : String) : String :=
  ⟨base64Chunks (strBytes (username ++ ":" ++ password))⟩

/-- `encodedAuthWithoutPrefix.WithPrefix`: prepend exactly one `Basic `. -/
def withPrefix (a : String) : String := basicPrefix ++ a

/-! ## Configuration (`authhack.go`, `Config` / `CreateConfig`)

The source `Config` carries the log level, the three query-parameter
names, the cookie name and the cookie domain.  It has no cookie-path
field, even though the repository's readme documents a `CookiePath`
option and the test suite compares the emitted cookie's path against
`config.CookiePath`. -/

structure Config where
  logLevel : Nat
  usernameQueryParam : String
  passwordQueryParam : String
  authorizationQueryParam : String
  cookieName : String
  cookieDomain : String
deriving DecidableEq

/-- `CreateConfig` with its default values (`Warning` log level is 2). -/
def CreateConfig : Config :=
  { logLevel := 2
    usernameQueryParam := "username"
    passwordQueryParam := "password"
    authorizationQueryParam := "authorization"
    cookieName := "traefik-authhack"
    cookieDomain := "" }

/-! ## Requests and responses

A request carries the `Authorization` header values (Go `Header.Get`
returns the first one), the URL split into its query-free part
(`urlBase`), its parsed query parameters in order, the parsed cookie
pairs in order, and the `RequestURI` string as it arrived. -/

structure Request where
  authHeaderVals : List String
  urlBase : String
  queryParams : List (String × String)
  cookies : List (String × String)
  requestURI : String
deriving DecidableEq

/-- `http.Header.Get`: first value or the empty string. -/
def headerGet : List String → String
  | [] => ""
  | v :: _ => v

/-- The cookie literal built in the redirect branch of `ServeHTTP`,
mirroring the fields of Go's `http.Cookie` that the plugin touches.
`path` stays at the Go zero value `""` because the source never sets it
(and `http.Cookie.String` emits no `Path` attribute for an empty path). -/
structure HttpCookie where
  name : String
  value : String
  path : String
  domain : String
  secure : Bool
  httpOnly : Bool
  sameSiteStrict : Bool
deriving DecidableEq

/-- What the plugin writes through the `http.ResponseWriter`. -/
structure Response where
  setCookie : Option HttpCookie := none
  location : Option String := none
  status : Option Nat := none
  body : String := ""
deriving DecidableEq

/-- Terminal result of one filter pass: the response headers written and
the request handed to the next handler, if any. -/
structure Outcome where
  response : Response
  forwarded : Option Request
deriving DecidableEq

/-! ## Query helpers (`url.Values` and the request query wrapper)

`url.Values.Get` returns the first value bound to a key; `Del` removes
every binding of the key; `Encode` sorts by key (stably over our pair
list, matching Go's per-key value order) and percent-escapes with
`url.QueryEscape`. -/

/-- First value for a key, or `""`. -/
def queryGet (q : List (String × String)) (k : String) : String :=
  match q.find? (fun p => p.1 == k) with
  | some p => p.2
  | none => ""

/-- Remove every pair bound to a key. -/
def queryDel (q : List (String × String)) (k : String) : List (String × String) :=
  q.filter (fun p => p.1 != k)

/-- Hexadecimal digit, upper case, as used by `url.QueryEscape`. -/
def hexDigit (n : Nat) : Char := "0123456789ABCDEF".data.getD n '0'

/-- Bytes `url.QueryEscape` passes through unescaped. -/
def isUnreservedQueryByte (b : Nat) : Bool :=
  (65 ≤ b && b ≤ 90) || (97 ≤ b && b ≤ 122) || (48 ≤ b && b ≤ 57) ||
    b == 45 || b == 95 || b == 46 || b == 126

/-- `url.QueryEscape`: space becomes `+`, unreserved bytes pass through,
everything else is `%XX`-escaped per UTF-8 byte. -/
def queryEscape (s : String) : String :=
  ⟨(strBytes s).flatMap fun b =>
    if b == 32 then ['+']
    else if isUnreservedQueryByte b then [Char.ofNat b]
    else ['%', hexDigit (b / 16), hexDigit (b % 16)]⟩

/-- `url.Values.Encode`: key-sorted, escaped `k=v` pairs joined by `&`. -/
def encodeQuery (q : List (String × String)) : String :=
  String.intercalate "&"
    ((q.insertionSort (fun a b => a.1 ≤ b.1)).map
      (fun p => queryEscape p.1 ++ "=" ++ queryEscape p.2))

/-- `url.URL.String` restricted to the parts the plugin can change: the
query-free part followed by `?` and the encoded query when non-empty. -/
def urlString (base : String) (q : List (String × String)) : String :=
  let enc := encodeQuery q
  base ++ (if enc = "" then "" else "?" ++ enc)

/-- The request query wrapper state (`requestQueryWrapper`): the cached
parsed query and the dirty flag. -/
structure QueryWrapper where
  params : List (String × String)
  dirty : Bool
deriving DecidableEq

/-! ## The filter pipeline (`authhack.go`) -/

/-- `hasAuthHeader`: a non-empty `Authorization` header value exists. -/
def hasAuthHeader (r : Request) : Bool := headerGet r.authHeaderVals != ""

/-- `getAndScrubAuthQueryParam`: read the configured authorization
parameter; when its value is non-empty, normalize it and delete the
parameter. -/
def getAndScrubAuthQueryParam (cfg : Config) (w : QueryWrapper) :
    String × QueryWrapper :=
  if queryGet w.params cfg.authorizationQueryParam ≠ "" then
    (newEncodedAuthWithoutPrefix (queryGet w.params cfg.authorizationQueryParam),
      { params := queryDel w.params cfg.authorizationQueryParam, dirty := true })
  else ("", w)

/-- `getAndScrubUserPassQueryParams`: when the username parameter is
non-empty, encode username and (possibly empty) password and delete both
parameters. -/
def getAndScrubUserPassQueryParams (cfg : Config) (w : QueryWrapper) :
    String × QueryWrapper :=
  if queryGet w.params cfg.usernameQueryParam ≠ "" then
    (encodeAuthWithoutPrefix (queryGet w.params cfg.usernameQueryParam)
        (queryGet w.params cfg.passwordQueryParam),
      { params := queryDel (queryDel w.params cfg.usernameQueryParam)
          cfg.passwordQueryParam
        dirty := true })
  else ("", w)

/-- `getAndScrubAuthQueryParams`: run both query extractions on the
wrapper, prefer the authorization-parameter result when non-empty, then
`Apply` the wrapper (re-encode the query and refresh `RequestURI` only
when a mutation happened). -/
def getAndScrubAuthQueryParams (cfg : Config) (r : Request) :
    String × Request :=
  let s1 := getAndScrubAuthQueryParam cfg { params := r.queryParams, dirty := false }
  let s2 := getAndScrubUserPassQueryParams cfg s1.2
  let result := if s1.1 = "" then s2.1 else s1.1
  (result,
    if s2.2.dirty then
      { r with queryParams := s2.2.params
               requestURI := urlString r.urlBase s2.2.params }
    else r)

/-- First cookie value bound to a name (`request.Cookies()` order). -/
def findCookie (cs : List (String × String)) (name : String) : Option String :=
  (cs.find? (fun c => c.1 == name)).map Prod.snd

/-- `removeCookie`: rebuild the cookie header from every cookie other
than the (first) matched one. -/
def removeFirstCookie : List (String × String) → String → List (String × String)
  | [], _ => []
  | c :: rest, name =>
      if c.1 == name then rest else c :: removeFirstCookie rest name

/-- Number of cookies bound to a name. -/
def countCookie (cs : List (String × String)) (name : String) : Nat :=
  (cs.filter (fun c => c.1 == name)).length

/-- `getAndScrubAuthCookie`: scan for the configured cookie; when found,
remove that cookie and return its value passed through
`newEncodedAuthWithoutPrefix`. -/
def getAndScrubAuthCookie (cfg : Config) (r : Request) : String × Request :=
  match findCookie r.cookies cfg.cookieName with
  | some v =>
      (newEncodedAuthWithoutPrefix v,
        { r with cookies := removeFirstCookie r.cookies cfg.cookieName })
  | none => ("", r)

/-- Credential extracted from the query parameters during one pass. -/
def queryCred (cfg : Config) (r : Request) : String :=
  (getAndScrubAuthQueryParams cfg r).1

/-- Request state after the query scrub. -/
def afterQueryScrub (cfg : Config) (r : Request) : Request :=
  (getAndScrubAuthQueryParams cfg r).2

/-- Credential extracted from the cookie during one pass. -/
def cookieCred (cfg : Config) (r : Request) : String :=
  (getAndScrubAuthCookie cfg (afterQueryScrub cfg r)).1

/-- Request state after both scrubs, as it exists when the decision
policy runs. -/
def scrubbedRequest (cfg : Config) (r : Request) : Request :=
  (getAndScrubAuthCookie cfg (afterQueryScrub cfg r)).2

/-- `ServeHTTP`: check the header, always scrub query and cookie, then
either proxy unchanged, answer a 307 redirect that sets the credential
cookie, or promote the cookie credential into the header and proxy. -/
def serveHTTP (cfg : Config) (r : Request) : Outcome :=
  let r2 := scrubbedRequest cfg r
  if hasAuthHeader r then
    { response := {}, forwarded := some r2 }
  else if queryCred cfg r ≠ "" ∧ queryCred cfg r ≠ cookieCred cfg r then
    { response :=
        { setCookie := some
            { name := cfg.cookieName
              value := queryCred cfg r
              path := ""
              domain := cfg.cookieDomain
              secure := true
              httpOnly := true
              sameSiteStrict := true }
          location := some r2.requestURI
          status := some 307
          body := "" }
      forwarded := none }
  else
    let r3 :=
      if cookieCred cfg r ≠ "" then
        { r2 with authHeaderVals :=
            r2.authHeaderVals ++ [withPrefix (cookieCred cfg r)] }
      else r2
    { response := {}, forwarded := some r3 }

/-! ## Concrete requests used as witnesses and counterexamples -/

/-- A request that carries only an encoded-credential query parameter. -/
def reqAuthParam : Request :=
  { authHeaderVals := []
    urlBase := "https://localhost"
    queryParams := [("authorization", "dGVzdHVzZXJuYW1lOnRlc3RwYXNzd29yZA==")]
    cookies := []
    requestURI := "https://localhost?authorization=dGVzdHVzZXJuYW1lOnRlc3RwYXNzd29yZA%3D%3D" }

/-- A redirect-triggering request whose URL keeps a non-credential query
parameter after scrubbing, so the scrubbed URI differs from the entry
URI. -/
def reqExtraParam : Request :=
  { authHeaderVals := []
    urlBase := "https://localhost/app"
    queryParams := [("authorization", "dGVzdA=="), ("other", "1")]
    cookies := []
    requestURI := "https://localhost/app?authorization=dGVzdA%3D%3D&other=1" }

/-- A request carrying only a password query parameter, with no username
parameter. -/
def reqPasswordOnly : Request :=
  { authHeaderVals := []
    urlBase := "https://localhost"
    queryParams := [("password", "secret")]
    cookies := []
    requestURI := "https://localhost?password=secret" }

/-- A request with an existing `Authorization` header plus mismatched
query parameters and a mismatched credential cookie. -/
def reqAllCarriers : Request :=
  { authHeaderVals := ["Basic aGVhZGVyOnZhbHVl"]
    urlBase := "https://localhost"
    queryParams := [("authorization", "cXVlcnk6dmFsdWU=")]
    cookies := [("traefik-authhack", "Y29va2llOnZhbHVl")]
    requestURI := "https://localhost?authorization=cXVlcnk6dmFsdWU%3D" }

/-- A request with an existing `Authorization` header whose query holds
only a password parameter, with no username parameter. -/
def reqHeaderPasswordOnly : Request :=
  { authHeaderVals := ["Basic aGVhZGVyOnZhbHVl"]
    urlBase := "https://localhost"
    queryParams := [("password", "secret")]
    cookies := []
    requestURI := "https://localhost?password=secret" }

/-- A request whose query credential equals its cookie credential. -/
def reqEqualQueryCookie : Request :=
  { authHeaderVals := []
    urlBase := "https://localhost"
    queryParams := [("authorization", "c2FtZTpzYW1l")]
    cookies := [("traefik-authhack", "c2FtZTpzYW1l")]
    requestURI := "https://localhost?authorization=c2FtZTpzYW1l" }

/-- A request whose authorization parameter and username/password
parameters decode to different credentials. -/
def reqMismatch : Request :=
  { authHeaderVals := []
    urlBase := "https://localhost"
    queryParams :=
      [("authorization", "QQ=="), ("username", "testusername"),
        ("password", "testpassword")]
    cookies := []
    requestURI := "https://localhost?authorization=QQ%3D%3D&password=testpassword&username=testusername" }

/-- A request whose credential cookie value itself starts with the
`Basic ` scheme prefix. -/
def reqBasicCookie : Request :=
  { authHeaderVals := []
    urlBase := "https://localhost"
    queryParams := []
    cookies := [("traefik-authhack", "Basic abc")]
    requestURI := "https://localhost" }

/-- A request carrying two cookies with the configured name, surrounded
by unrelated cookies. -/
def reqDupCookie : Request :=
  { authHeaderVals := []
    urlBase := "https://localhost"
    queryParams := []
    cookies :=
      [("a", "1"), ("traefik-authhack", "Zmlyc3Q="), ("b", "2"),
        ("traefik-authhack", "c2Vjb25k")]
    requestURI := "https://localhost" }

/-! ## Codec lemmas -/

theorem string_mk_data (s : String) : (⟨s.data⟩ : String) = s := by
  cases s
  rfl

theorem basicData_length : basicData.length = 6 := rfl

theorem stripBasicAux_succ (f : Nat) (l : List Char) :
    stripBasicAux (f + 1) l =
      if basicData <+: l then stripBasicAux f (l.drop 6) else l := rfl

theorem stripBasicAux_eq_of_noPrefix {l : List Char} (f : Nat)
    (h : ¬ basicData <+: l) : stripBasicAux f l = l := by
  cases f with
  | zero => rfl
  | succ f => simp [stripBasicAux, h]

/-- With fuel at least the input length, the stripping loop reaches a
fixpoint: its result carries no leading scheme prefix. -/
theorem stripBasicAux_prefixFree :
    ∀ (f : Nat) (l : List Char), l.length ≤ f →
      ¬ basicData <+: stripBasicAux f l := by
  intro f
  induction f with
  | zero =>
    intro l hl hpre
    have h6 := hpre.length_le
    rw [basicData_length] at h6
    rw [stripBasicAux] at h6
    omega
  | succ f ih =>
    intro l hl
    rw [stripBasicAux_succ]
    by_cases hp : basicData <+: l
    · rw [if_pos hp]
      apply ih
      have h6 := hp.length_le
      rw [basicData_length] at h6
      simp only [List.length_drop]
      omega
    · rw [if_neg hp]
      exact hp

theorem newEncodedAuthWithoutPrefix_prefixFree (s : String) :
    ¬ basicData <+: (newEncodedAuthWithoutPrefix s).data :=
  stripBasicAux_prefixFree s.data.length s.data le_rfl

/-- Stripping a string that carries no scheme prefix is the identity. -/
theorem newEncodedAuthWithoutPrefix_eq_of_noPrefix {s : String}
    (h : ¬ basicData <+: s.data) : newEncodedAuthWithoutPrefix s = s := by
  unfold newEncodedAuthWithoutPrefix
  rw [stripBasicAux_eq_of_noPrefix _ h]

theorem data_withPrefix (a : String) :
    (withPrefix a).data = basicData ++ a.data := by
  cases a
  rfl

theorem b64char_mem (n : Nat) : b64char n ∈ base64Table := by
  unfold b64char List.getD
  cases h : base64Table.get? n with
  | none => simp [Option.getD]; decide
  | some c => simpa [Option.getD] using List.get?_mem h

theorem space_not_mem_base64Table : ' ' ∉ base64Table := by decide

theorem b64char_ne_space (n : Nat) : b64char n ≠ ' ' := by
  intro h
  exact space_not_mem_base64Table (h ▸ b64char_mem n)

theorem space_not_mem_base64Chunks : ∀ l : List Nat, ' ' ∉ base64Chunks l
  | [] => by simp [base64Chunks]
  | [b1] => by
      simp only [base64Chunks, List.mem_cons, List.not_mem_nil, or_false]
      push_neg
      refine ⟨?_, ?_, ?_, ?_⟩ <;> first
        | exact fun h => b64char_ne_space _ h.symm
        | decide
  | [b1, b2] => by
      simp only [base64Chunks, List.mem_cons, List.not_mem_nil, or_false]
      push_neg
      refine ⟨?_, ?_, ?_, ?_⟩ <;> first
        | exact fun h => b64char_ne_space _ h.symm
        | decide
  | b1 :: b2 :: b3 :: rest => by
      simp only [base64Chunks, List.mem_cons]
      push_neg
      refine ⟨?_, ?_, ?_, ?_, ?_⟩ <;> first
        | exact fun h => b64char_ne_space _ h.symm
        | exact fun h => space_not_mem_base64Chunks rest h

theorem base64_prefixFree (l : List Nat) :
    ¬ basicData <+: base64Chunks l := by
  rintro ⟨t, ht⟩
  have hsp : ' ' ∈ basicData := by decide
  have : ' ' ∈ base64Chunks l := ht ▸ List.mem_append_left t hsp
  exact space_not_mem_base64Chunks l this

theorem encodeAuth_prefixFree (u p : String) :
    ¬ basicData <+: (encodeAuthWithoutPrefix u p).data :=
  base64_prefixFree _

/-- Stripping `Basic ` repeatedly from `Basic ` prepended to a
prefix-free string yields that string back. -/
theorem stripBasic_basic_append {l : List Char} (h : ¬ basicData <+: l) :
    stripBasicAux (basicData ++ l).length (basicData ++ l) = l := by
  have hlen : (basicData ++ l).length = (l.length + 5) + 1 := by
    simp [List.length_append, basicData_length]
    omega
  rw [hlen, stripBasicAux_succ, if_pos (List.prefix_append basicData l)]
  have hdrop : (basicData ++ l).drop 6 = l := by
    rw [← basicData_length]
    exact List.drop_left basicData l
  rw [hdrop, stripBasicAux_eq_of_noPrefix _ h]

/-- C8: for all username and password strings, adding exactly one
`Basic ` prefix to the encoded credential and then stripping prefixes
round-trips to the original canonical credential:
`normalize (withPrefix (encode u p)) = encode u p`. -/
theorem normalize_withPrefix_encode_roundTrip (u p : String) :
    newEncodedAuthWithoutPrefix (withPrefix (encodeAuthWithoutPrefix u p)) =
      encodeAuthWithoutPrefix u p := by
  unfold newEncodedAuthWithoutPrefix
  rw [data_withPrefix]
  rw [stripBasic_basic_append (encodeAuth_prefixFree u p)]

/-! ## Query-map lemmas -/

theorem queryGet_nil (k : String) : queryGet [] k = "" := rfl

theorem queryGet_cons_pos {p : String × String} (q : List (String × String))
    {k : String} (h : p.1 = k) : queryGet (p :: q) k = p.2 := by
  unfold queryGet
  rw [List.find?_cons_of_pos _ (by simp [h])]

theorem queryGet_cons_neg {p : String × String} (q : List (String × String))
    {k : String} (h : p.1 ≠ k) : queryGet (p :: q) k = queryGet q k := by
  unfold queryGet
  rw [List.find?_cons_of_neg _ (by simp [h])]

theorem queryDel_cons_pos {p : String × String} (q : List (String × String))
    {k : String} (h : p.1 = k) : queryDel (p :: q) k = queryDel q k := by
  simp [queryDel, List.filter_cons, h]

theorem queryDel_cons_neg {p : String × String} (q : List (String × String))
    {k : String} (h : p.1 ≠ k) : queryDel (p :: q) k = p :: queryDel q k := by
  simp [queryDel, List.filter_cons, h]

theorem queryGet_queryDel_self (q : List (String × String)) (k : String) :
    queryGet (queryDel q k) k = "" := by
  induction q with
  | nil => rfl
  | cons p rest ih =>
    by_cases h : p.1 = k
    · rw [queryDel_cons_pos rest h]
      exact ih
    · rw [queryDel_cons_neg rest h, queryGet_cons_neg _ h]
      exact ih

theorem queryGet_queryDel_ne (q : List (String × String)) {k k' : String}
    (h : k ≠ k') : queryGet (queryDel q k') k = queryGet q k := by
  induction q with
  | nil => rfl
  | cons p rest ih =>
    by_cases hp : p.1 = k'
    · have hpk : p.1 ≠ k := fun hkk => h (hkk ▸ hp.symm ▸ rfl)
      rw [queryDel_cons_pos rest hp, queryGet_cons_neg rest hpk]
      exact ih
    · rw [queryDel_cons_neg rest hp]
      by_cases hk : p.1 = k
      · rw [queryGet_cons_pos _ hk, queryGet_cons_pos _ hk]
      · rw [queryGet_cons_neg _ hk, queryGet_cons_neg _ hk]
        exact ih

theorem queryGet_queryDel_of_empty (q : List (String × String))
    {k : String} (k' : String) (h : queryGet q k = "") :
    queryGet (queryDel q k') k = "" := by
  by_cases hkk : k = k'
  · rw [hkk]
    exact queryGet_queryDel_self q k'
  · rw [queryGet_queryDel_ne q hkk]
    exact h

/-! ## Cookie-list lemmas -/

theorem findCookie_cons_pos {c : String × String}
    (cs : List (String × String)) {n : String} (h : c.1 = n) :
    findCookie (c :: cs) n = some c.2 := by
  unfold findCookie
  rw [List.find?_cons_of_pos _ (by simp [h])]
  rfl

theorem findCookie_cons_neg {c : String × String}
    (cs : List (String × String)) {n : String} (h : c.1 ≠ n) :
    findCookie (c :: cs) n = findCookie cs n := by
  unfold findCookie
  rw [List.find?_cons_of_neg _ (by simp [h])]

theorem countCookie_cons_pos {c : String × String}
    (cs : List (String × String)) {n : String} (h : c.1 = n) :
    countCookie (c :: cs) n = countCookie cs n + 1 := by
  simp [countCookie, List.filter_cons, h]

theorem countCookie_cons_neg {c : String × String}
    (cs : List (String × String)) {n : String} (h : c.1 ≠ n) :
    countCookie (c :: cs) n = countCookie cs n := by
  simp [countCookie, List.filter_cons, h]

theorem removeFirstCookie_cons_pos {c : String × String}
    (cs : List (String × String)) {n : String} (h : c.1 = n) :
    removeFirstCookie (c :: cs) n = cs := by
  simp [removeFirstCookie, h]

theorem removeFirstCookie_cons_neg {c : String × String}
    (cs : List (String × String)) {n : String} (h : c.1 ≠ n) :
    removeFirstCookie (c :: cs) n = c :: removeFirstCookie cs n := by
  simp [removeFirstCookie, h]

theorem findCookie_eq_none_iff (cs : List (String × String)) (n : String) :
    findCookie cs n = none ↔ countCookie cs n = 0 := by
  induction cs with
  | nil => simp [findCookie, countCookie]
  | cons c rest ih =>
    by_cases h : c.1 = n
    · rw [findCookie_cons_pos rest h, countCookie_cons_pos rest h]
      simp
    · rw [findCookie_cons_neg rest h, countCookie_cons_neg rest h]
      exact ih

theorem countCookie_removeFirst (cs : List (String × String)) (n : String)
    {v : String} (h : findCookie cs n = some v) :
    countCookie (removeFirstCookie cs n) n + 1 = countCookie cs n := by
  induction cs with
  | nil => simp [findCookie] at h
  | cons c rest ih =>
    by_cases hc : c.1 = n
    · rw [removeFirstCookie_cons_pos rest hc, countCookie_cons_pos rest hc]
    · rw [findCookie_cons_neg rest hc] at h
      rw [removeFirstCookie_cons_neg rest hc,
        countCookie_cons_neg (removeFirstCookie rest n) hc,
        countCookie_cons_neg rest hc]
      exact ih h

theorem findCookie_append_of_none {pre : List (String × String)}
    {n : String} (hpre : ∀ c ∈ pre, c.1 ≠ n)
    (v : String) (post : List (String × String)) :
    findCookie (pre ++ (n, v) :: post) n = some v := by
  induction pre with
  | nil => exact findCookie_cons_pos post rfl
  | cons c rest ih =>
    have hc : c.1 ≠ n := hpre c (List.mem_cons_self c rest)
    rw [List.cons_append, findCookie_cons_neg _ hc]
    exact ih fun d hd => hpre d (List.mem_cons_of_mem c hd)

theorem removeFirstCookie_append_of_none {pre : List (String × String)}
    {n : String} (hpre : ∀ c ∈ pre, c.1 ≠ n)
    (v : String) (post : List (String × String)) :
    removeFirstCookie (pre ++ (n, v) :: post) n = pre ++ post := by
  induction pre with
  | nil => exact removeFirstCookie_cons_pos post rfl
  | cons c rest ih =>
    have hc : c.1 ≠ n := hpre c (List.mem_cons_self c rest)
    rw [List.cons_append, removeFirstCookie_cons_neg _ hc,
      ih fun d hd => hpre d (List.mem_cons_of_mem c hd), List.cons_append]

/-! ## Query-scrub characterization

Four lemmas, one per combination of "authorization parameter fired" and
"username parameter fired", describing `getAndScrubAuthQueryParams`
exactly. -/

theorem scrubQuery_none_none {cfg : Config} {r : Request}
    (h1 : queryGet r.queryParams cfg.authorizationQueryParam = "")
    (h2 : queryGet r.queryParams cfg.usernameQueryParam = "") :
    getAndScrubAuthQueryParams cfg r = ("", r) := by
  simp [getAndScrubAuthQueryParams, getAndScrubAuthQueryParam,
    getAndScrubUserPassQueryParams, h1, h2]

theorem scrubQuery_none_user {cfg : Config} {r : Request}
    (h1 : queryGet r.queryParams cfg.authorizationQueryParam = "")
    (h2 : queryGet r.queryParams cfg.usernameQueryParam ≠ "") :
    getAndScrubAuthQueryParams cfg r =
      (encodeAuthWithoutPrefix (queryGet r.queryParams cfg.usernameQueryParam)
          (queryGet r.queryParams cfg.passwordQueryParam),
        { r with
            queryParams := queryDel (queryDel r.queryParams
              cfg.usernameQueryParam) cfg.passwordQueryParam
            requestURI := urlString r.urlBase (queryDel (queryDel r.queryParams
              cfg.usernameQueryParam) cfg.passwordQueryParam) }) := by
  simp [getAndScrubAuthQueryParams, getAndScrubAuthQueryParam,
    getAndScrubUserPassQueryParams, h1, h2]

theorem scrubQuery_auth_none {cfg : Config} {r : Request}
    (h1 : queryGet r.queryParams cfg.authorizationQueryParam ≠ "")
    (h2 : queryGet (queryDel r.queryParams cfg.authorizationQueryParam)
      cfg.usernameQueryParam = "") :
    getAndScrubAuthQueryParams cfg r =
      (newEncodedAuthWithoutPrefix
          (queryGet r.queryParams cfg.authorizationQueryParam),
        { r with
            queryParams := queryDel r.queryParams cfg.authorizationQueryParam
            requestURI := urlString r.urlBase
              (queryDel r.queryParams cfg.authorizationQueryParam) }) := by
  by_cases hn : newEncodedAuthWithoutPrefix
      (queryGet r.queryParams cfg.authorizationQueryParam) = "" <;>
    simp [getAndScrubAuthQueryParams, getAndScrubAuthQueryParam,
      getAndScrubUserPassQueryParams, h1, h2, hn]

theorem scrubQuery_auth_user {cfg : Config} {r : Request}
    (h1 : queryGet r.queryParams cfg.authorizationQueryParam ≠ "")
    (h2 : queryGet (queryDel r.queryParams cfg.authorizationQueryParam)
      cfg.usernameQueryParam ≠ "") :
    getAndScrubAuthQueryParams cfg r =
      (if newEncodedAuthWithoutPrefix
          (queryGet r.queryParams cfg.authorizationQueryParam) = "" then
        encodeAuthWithoutPrefix
          (queryGet (queryDel r.queryParams cfg.authorizationQueryParam)
            cfg.usernameQueryParam)
          (queryGet (queryDel r.queryParams cfg.authorizationQueryParam)
            cfg.passwordQueryParam)
      else
        newEncodedAuthWithoutPrefix
          (queryGet r.queryParams cfg.authorizationQueryParam),
        { r with
            queryParams := queryDel (queryDel (queryDel r.queryParams
              cfg.authorizationQueryParam) cfg.usernameQueryParam)
              cfg.passwordQueryParam
            requestURI := urlString r.urlBase
              (queryDel (queryDel (queryDel r.queryParams
                cfg.authorizationQueryParam) cfg.usernameQueryParam)
                cfg.passwordQueryParam) }) := by
  simp [getAndScrubAuthQueryParams, getAndScrubAuthQueryParam,
    getAndScrubUserPassQueryParams, h1, h2]

/-! ## Derived facts about the query scrub -/

theorem afterQueryScrub_frame (cfg : Config) (r : Request) :
    (afterQueryScrub cfg r).authHeaderVals = r.authHeaderVals ∧
    (afterQueryScrub cfg r).cookies = r.cookies ∧
    (afterQueryScrub cfg r).urlBase = r.urlBase := by
  by_cases h1 : queryGet r.queryParams cfg.authorizationQueryParam = ""
  · by_cases h2 : queryGet r.queryParams cfg.usernameQueryParam = ""
    · simp [afterQueryScrub, scrubQuery_none_none h1 h2]
    · simp [afterQueryScrub, scrubQuery_none_user h1 h2]
  · by_cases h2 : queryGet (queryDel r.queryParams
      cfg.authorizationQueryParam) cfg.usernameQueryParam = ""
    · simp [afterQueryScrub, scrubQuery_auth_none h1 h2]
    · simp [afterQueryScrub, scrubQuery_auth_user h1 h2]

/-- After the query scrub, the authorization parameter reads empty. -/
theorem afterQueryScrub_get_auth (cfg : Config) (r : Request) :
    queryGet (afterQueryScrub cfg r).queryParams
      cfg.authorizationQueryParam = "" := by
  by_cases h1 : queryGet r.queryParams cfg.authorizationQueryParam = ""
  · by_cases h2 : queryGet r.queryParams cfg.usernameQueryParam = ""
    · simpa [afterQueryScrub, scrubQuery_none_none h1 h2] using h1
    · simp only [afterQueryScrub, scrubQuery_none_user h1 h2]
      exact queryGet_queryDel_of_empty _ _
        (queryGet_queryDel_of_empty _ _ h1)
  · by_cases h2 : queryGet (queryDel r.queryParams
      cfg.authorizationQueryParam) cfg.usernameQueryParam = ""
    · simp only [afterQueryScrub, scrubQuery_auth_none h1 h2]
      exact queryGet_queryDel_self _ _
    · simp only [afterQueryScrub, scrubQuery_auth_user h1 h2]
      exact queryGet_queryDel_of_empty _ _
        (queryGet_queryDel_of_empty _ _ (queryGet_queryDel_self _ _))

/-- After the query scrub, the username parameter reads empty. -/
theorem afterQueryScrub_get_username (cfg : Config) (r : Request) :
    queryGet (afterQueryScrub cfg r).queryParams
      cfg.usernameQueryParam = "" := by
  by_cases h1 : queryGet r.queryParams cfg.authorizationQueryParam = ""
  · by_cases h2 : queryGet r.queryParams cfg.usernameQueryParam = ""
    · simpa [afterQueryScrub, scrubQuery_none_none h1 h2] using h2
    · simp only [afterQueryScrub, scrubQuery_none_user h1 h2]
      exact queryGet_queryDel_of_empty _ _ (queryGet_queryDel_self _ _)
  · by_cases h2 : queryGet (queryDel r.queryParams
      cfg.authorizationQueryParam) cfg.usernameQueryParam = ""
    · simpa [afterQueryScrub, scrubQuery_auth_none h1 h2] using h2
    · simp only [afterQueryScrub, scrubQuery_auth_user h1 h2]
      exact queryGet_queryDel_of_empty _ _ (queryGet_queryDel_self _ _)

/-- When a non-empty username parameter was present, the password
parameter is deleted as well (distinct authorization/username names). -/
theorem afterQueryScrub_get_password (cfg : Config) (r : Request)
    (hAU : cfg.authorizationQueryParam ≠ cfg.usernameQueryParam)
    (hU : queryGet r.queryParams cfg.usernameQueryParam ≠ "") :
    queryGet (afterQueryScrub cfg r).queryParams
      cfg.passwordQueryParam = "" := by
  by_cases h1 : queryGet r.queryParams cfg.authorizationQueryParam = ""
  · simp only [afterQueryScrub, scrubQuery_none_user h1 hU]
    exact queryGet_queryDel_self _ _
  · have h2 : queryGet (queryDel r.queryParams
        cfg.authorizationQueryParam) cfg.usernameQueryParam ≠ "" := by
      rw [queryGet_queryDel_ne _ (Ne.symm hAU)]
      exact hU
    simp only [afterQueryScrub, scrubQuery_auth_user h1 h2]
    exact queryGet_queryDel_self _ _

/-- Whenever the query yielded a credential, the wrapper was dirty and
`Apply` refreshed the request line from the scrubbed query. -/
theorem afterQueryScrub_requestURI (cfg : Config) (r : Request)
    (hq : queryCred cfg r ≠ "") :
    (afterQueryScrub cfg r).requestURI =
      urlString r.urlBase (afterQueryScrub cfg r).queryParams := by
  by_cases h1 : queryGet r.queryParams cfg.authorizationQueryParam = ""
  · by_cases h2 : queryGet r.queryParams cfg.usernameQueryParam = ""
    · exact absurd (by simp [queryCred, scrubQuery_none_none h1 h2]) hq
    · simp [afterQueryScrub, scrubQuery_none_user h1 h2]
  · by_cases h2 : queryGet (queryDel r.queryParams
      cfg.authorizationQueryParam) cfg.usernameQueryParam = ""
    · simp [afterQueryScrub, scrubQuery_auth_none h1 h2]
    · simp [afterQueryScrub, scrubQuery_auth_user h1 h2]

/-- The query-extracted credential never carries a `Basic ` prefix: it is
either absent, normalized, or freshly base64-encoded. -/
theorem queryCred_prefixFree (cfg : Config) (r : Request) :
    ¬ basicData <+: (queryCred cfg r).data := by
  have hnil : ¬ basicData <+: ("" : String).data := by
    intro h
    have := h.length_le
    rw [basicData_length] at this
    simp at this
  by_cases h1 : queryGet r.queryParams cfg.authorizationQueryParam = ""
  · by_cases h2 : queryGet r.queryParams cfg.usernameQueryParam = ""
    · simpa [queryCred, scrubQuery_none_none h1 h2] using hnil
    · simpa [queryCred, scrubQuery_none_user h1 h2] using
        encodeAuth_prefixFree _ _
  · by_cases h2 : queryGet (queryDel r.queryParams
      cfg.authorizationQueryParam) cfg.usernameQueryParam = ""
    · simpa [queryCred, scrubQuery_auth_none h1 h2] using
        newEncodedAuthWithoutPrefix_prefixFree _
    · simp only [queryCred, scrubQuery_auth_user h1 h2]
      by_cases hn : newEncodedAuthWithoutPrefix
          (queryGet r.queryParams cfg.authorizationQueryParam) = ""
      · simpa [hn] using encodeAuth_prefixFree _ _
      · simpa [hn] using newEncodedAuthWithoutPrefix_prefixFree _

/-! ## Derived facts about the cookie scrub -/

theorem scrubCookie_of_find_some {cfg : Config} {r : Request} {v : String}
    (h : findCookie r.cookies cfg.cookieName = some v) :
    getAndScrubAuthCookie cfg r =
      (newEncodedAuthWithoutPrefix v,
        { r with cookies := removeFirstCookie r.cookies cfg.cookieName }) := by
  simp [getAndScrubAuthCookie, h]

theorem scrubCookie_of_find_none {cfg : Config} {r : Request}
    (h : findCookie r.cookies cfg.cookieName = none) :
    getAndScrubAuthCookie cfg r = ("", r) := by
  simp [getAndScrubAuthCookie, h]

theorem scrubCookie_frame (cfg : Config) (r : Request) :
    (getAndScrubAuthCookie cfg r).2.authHeaderVals = r.authHeaderVals ∧
    (getAndScrubAuthCookie cfg r).2.queryParams = r.queryParams ∧
    (getAndScrubAuthCookie cfg r).2.urlBase = r.urlBase ∧
    (getAndScrubAuthCookie cfg r).2.requestURI = r.requestURI := by
  cases h : findCookie r.cookies cfg.cookieName with
  | none => simp [scrubCookie_of_find_none h]
  | some v => simp [scrubCookie_of_find_some h]

/-- The cookie-extracted credential never carries a `Basic ` prefix. -/
theorem cookieCredOf_prefixFree (cfg : Config) (r : Request) :
    ¬ basicData <+: ((getAndScrubAuthCookie cfg r).1).data := by
  cases h : findCookie r.cookies cfg.cookieName with
  | none =>
    rw [scrubCookie_of_find_none h]
    intro hpre
    have := hpre.length_le
    rw [basicData_length] at this
    simp at this
  | some v =>
    rw [scrubCookie_of_find_some h]
    exact newEncodedAuthWithoutPrefix_prefixFree v

/-! ## Branch lemmas for `serveHTTP` -/

theorem serveHTTP_of_hasAuth {cfg : Config} {r : Request}
    (hh : hasAuthHeader r = true) :
    serveHTTP cfg r = { response := {}, forwarded := some (scrubbedRequest cfg r) } := by
  simp [serveHTTP, hh]

theorem serveHTTP_of_redirect {cfg : Config} {r : Request}
    (hh : hasAuthHeader r = false)
    (hq : queryCred cfg r ≠ "")
    (hne : queryCred cfg r ≠ cookieCred cfg r) :
    serveHTTP cfg r =
      { response :=
          { setCookie := some
              { name := cfg.cookieName
                value := queryCred cfg r
                path := ""
                domain := cfg.cookieDomain
                secure := true
                httpOnly := true
                sameSiteStrict := true }
            location := some (scrubbedRequest cfg r).requestURI
            status := some 307
            body := "" }
        forwarded := none } := by
  simp [serveHTTP, hh, hq, hne]

theorem serveHTTP_of_forward {cfg : Config} {r : Request}
    (hh : hasAuthHeader r = false)
    (hq : queryCred cfg r = "" ∨ queryCred cfg r = cookieCred cfg r) :
    serveHTTP cfg r =
      { response := {}
        forwarded := some
          (if cookieCred cfg r ≠ "" then
            { scrubbedRequest cfg r with authHeaderVals :=
                (scrubbedRequest cfg r).authHeaderVals ++
                  [withPrefix (cookieCred cfg r)] }
          else scrubbedRequest cfg r) } := by
  have hcond : ¬ (queryCred cfg r ≠ "" ∧ queryCred cfg r ≠ cookieCred cfg r) := by
    rcases hq with h | h
    · exact fun hc => hc.1 h
    · exact fun hc => hc.2 h
  simp only [serveHTTP, hh, Bool.false_eq_true, if_false, hcond]

theorem serveHTTP_status_none_or_307 (cfg : Config) (r : Request) :
    (serveHTTP cfg r).response.status = none ∨
    (serveHTTP cfg r).response.status = some 307 := by
  cases hh : hasAuthHeader r with
  | true => left; rw [serveHTTP_of_hasAuth hh]
  | false =>
    by_cases hc : queryCred cfg r ≠ "" ∧ queryCred cfg r ≠ cookieCred cfg r
    · right
      rw [serveHTTP_of_redirect hh hc.1 hc.2]
    · left
      rw [not_and_or, not_not] at hc
      rcases hc with h | h
      · rw [serveHTTP_of_forward hh (Or.inl h)]
      · rw [not_not] at h
        rw [serveHTTP_of_forward hh (Or.inr h)]

/-- Any Set-Cookie the filter ever writes carries the query-extracted
credential as its value. -/
theorem serveHTTP_setCookie_value (cfg : Config) (r : Request) :
    ∀ c, (serveHTTP cfg r).response.setCookie = some c →
      c.value = queryCred cfg r := by
  intro c hc
  cases hh : hasAuthHeader r with
  | true =>
    rw [serveHTTP_of_hasAuth hh] at hc
    simp at hc
  | false =>
    by_cases hcond : queryCred cfg r ≠ "" ∧ queryCred cfg r ≠ cookieCred cfg r
    · rw [serveHTTP_of_redirect hh hcond.1 hcond.2] at hc
      simp only [Option.some.injEq] at hc
      rw [← hc]
    · have hq : queryCred cfg r = "" ∨ queryCred cfg r = cookieCred cfg r := by
        by_cases hz : queryCred cfg r = ""
        · exact Or.inl hz
        · push_neg at hcond
          exact Or.inr (hcond hz)
      rw [serveHTTP_of_forward hh hq] at hc
      simp at hc

/-! ## Claim theorems -/

/-- C1: for every request with no non-empty Authorization header whose
query-extracted credential is non-empty and differs from the
cookie-extracted credential, the filter answers with status 307 and an
empty body, sets a Set-Cookie whose value is the query credential's
canonical prefix-free form under the configured cookie name and domain,
marked Secure, HttpOnly and SameSite=Strict, and does not invoke the
next handler. -/
theorem c1_redirect_sets_cookie (cfg : Config) (r : Request)
    (hh : hasAuthHeader r = false)
    (hq : queryCred cfg r ≠ "")
    (hne : queryCred cfg r ≠ cookieCred cfg r) :
    (serveHTTP cfg r).response.status = some 307 ∧
    (serveHTTP cfg r).response.body = "" ∧
    (serveHTTP cfg r).response.setCookie = some
      { name := cfg.cookieName
        value := queryCred cfg r
        path := ""
        domain := cfg.cookieDomain
        secure := true
        httpOnly := true
        sameSiteStrict := true } ∧
    ¬ basicData <+: (queryCred cfg r).data ∧
    (serveHTTP cfg r).forwarded = none := by
  rw [serveHTTP_of_redirect hh hq hne]
  exact ⟨rfl, rfl, rfl, queryCred_prefixFree cfg r, rfl⟩

/-- Witness for C1 at a concrete authorization-parameter request. -/
theorem c1_redirect_sets_cookie_witness :
    (hasAuthHeader reqAuthParam = false ∧
      queryCred CreateConfig reqAuthParam ≠ "" ∧
      queryCred CreateConfig reqAuthParam ≠ cookieCred CreateConfig reqAuthParam) ∧
    (serveHTTP CreateConfig reqAuthParam).response.status = some 307 ∧
    (serveHTTP CreateConfig reqAuthParam).forwarded = none := by
  refine ⟨⟨by decide, by decide, by decide⟩, ?_, ?_⟩
  · exact (c1_redirect_sets_cookie CreateConfig reqAuthParam
      (by decide) (by decide) (by decide)).1
  · exact (c1_redirect_sets_cookie CreateConfig reqAuthParam
      (by decide) (by decide) (by decide)).2.2.2.2

/-- C2 counterexample: at a redirect-triggering request whose URL also
carries a non-credential parameter, the Location header is the scrubbed
URI, not the original full URI captured at entry. -/
theorem c2_location_differs_from_entry_uri :
    (serveHTTP CreateConfig reqExtraParam).response.status = some 307 ∧
    (serveHTTP CreateConfig reqExtraParam).response.location =
      some "https://localhost/app?other=1" ∧
    (serveHTTP CreateConfig reqExtraParam).response.location ≠
      some reqExtraParam.requestURI := by
  exact ⟨by decide, by decide, by decide⟩

/-- C2 (amended): in the redirect case the Location header equals the
request's RequestURI as refreshed by the query-scrub commit — the URL
rebuilt from the scrubbed query — rather than the URI captured at
entry. -/
theorem c2_location_is_scrubbed_uri (cfg : Config) (r : Request)
    (hh : hasAuthHeader r = false)
    (hq : queryCred cfg r ≠ "")
    (hne : queryCred cfg r ≠ cookieCred cfg r) :
    (serveHTTP cfg r).response.location =
      some (urlString r.urlBase (afterQueryScrub cfg r).queryParams) := by
  rw [serveHTTP_of_redirect hh hq hne]
  have hcf := (scrubCookie_frame cfg (afterQueryScrub cfg r)).2.2.2
  show some (scrubbedRequest cfg r).requestURI = _
  rw [show (scrubbedRequest cfg r).requestURI =
      (afterQueryScrub cfg r).requestURI from hcf,
    afterQueryScrub_requestURI cfg r hq]

/-- Witness for the amended C2 at a concrete request. -/
theorem c2_location_is_scrubbed_uri_witness :
    (hasAuthHeader reqExtraParam = false ∧
      queryCred CreateConfig reqExtraParam ≠ "" ∧
      queryCred CreateConfig reqExtraParam ≠ cookieCred CreateConfig reqExtraParam) ∧
    (serveHTTP CreateConfig reqExtraParam).response.location =
      some (urlString reqExtraParam.urlBase
        (afterQueryScrub CreateConfig reqExtraParam).queryParams) :=
  ⟨⟨by decide, by decide, by decide⟩,
    c2_location_is_scrubbed_uri CreateConfig reqExtraParam
      (by decide) (by decide) (by decide)⟩

/-- C9 counterexample: a cookie value that starts with `Basic ` is not
captured as-is — the extraction strips the prefix. -/
theorem c9_cookie_value_renormalized :
    (getAndScrubAuthCookie CreateConfig reqBasicCookie).1 = "abc" ∧
    (getAndScrubAuthCookie CreateConfig reqBasicCookie).1 ≠ "Basic abc" := by
  exact ⟨by decide, by decide⟩

/-- C9 (amended): the configured cookie's value is normalized on
capture: the extracted credential is the value with every leading
`Basic ` prefix stripped, and equals the raw value exactly when the
value carries no such prefix. -/
theorem c9_cookie_value_normalized_on_capture (cfg : Config) (r : Request)
    (v : String) (h : findCookie r.cookies cfg.cookieName = some v) :
    (getAndScrubAuthCookie cfg r).1 = newEncodedAuthWithoutPrefix v ∧
    (¬ basicData <+: v.data → (getAndScrubAuthCookie cfg r).1 = v) := by
  rw [scrubCookie_of_find_some h]
  exact ⟨rfl, fun hv => newEncodedAuthWithoutPrefix_eq_of_noPrefix hv⟩

/-- Witness for the amended C9 at a concrete prefixed cookie value. -/
theorem c9_cookie_value_normalized_on_capture_witness :
    findCookie reqBasicCookie.cookies CreateConfig.cookieName =
      some "Basic abc" ∧
    (getAndScrubAuthCookie CreateConfig reqBasicCookie).1 =
      newEncodedAuthWithoutPrefix "Basic abc" :=
  ⟨by decide,
    (c9_cookie_value_normalized_on_capture CreateConfig reqBasicCookie
      "Basic abc" (by decide)).1⟩

/-- C10: when several cookies carry the configured name, the credential
comes from the first one and exactly that one is removed; every other
cookie, later duplicates included, stays in place. -/
theorem c10_first_matching_cookie_removed (cfg : Config) (r : Request)
    (pre post : List (String × String)) (v : String)
    (hsplit : r.cookies = pre ++ (cfg.cookieName, v) :: post)
    (hpre : ∀ c ∈ pre, c.1 ≠ cfg.cookieName) :
    getAndScrubAuthCookie cfg r =
      (newEncodedAuthWithoutPrefix v, { r with cookies := pre ++ post }) := by
  have hf : findCookie r.cookies cfg.cookieName = some v := by
    rw [hsplit]
    exact findCookie_append_of_none hpre v post
  rw [scrubCookie_of_find_some hf, hsplit,
    removeFirstCookie_append_of_none hpre v post]

/-- Witness for C10 at a request with two same-named cookies. -/
theorem c10_first_matching_cookie_removed_witness :
    (reqDupCookie.cookies = [("a", "1")] ++
        (CreateConfig.cookieName, "Zmlyc3Q=") ::
          [("b", "2"), ("traefik-authhack", "c2Vjb25k")] ∧
      (∀ c ∈ [(("a" : String), ("1" : String))],
        c.1 ≠ CreateConfig.cookieName)) ∧
    getAndScrubAuthCookie CreateConfig reqDupCookie =
      (newEncodedAuthWithoutPrefix "Zmlyc3Q=",
        { reqDupCookie with cookies :=
            [("a", "1")] ++ [("b", "2"), ("traefik-authhack", "c2Vjb25k")] }) :=
  ⟨⟨by decide, by decide⟩,
    c10_first_matching_cookie_removed CreateConfig reqDupCookie
      [("a", "1")] [("b", "2"), ("traefik-authhack", "c2Vjb25k")]
      "Zmlyc3Q=" (by decide) (by decide)⟩

/-- C3 counterexample: a request whose query carries only a password
parameter (no username) is forwarded with that credential parameter
still present in its URL. -/
theorem c3_password_param_survives :
    (serveHTTP CreateConfig reqPasswordOnly).forwarded.map
      (fun fr => queryGet fr.queryParams CreateConfig.passwordQueryParam) =
      some "secret" := by decide

/-- C3 (amended): in every terminal branch the request state has an
empty read for the authorization and username parameters, loses the
password parameters whenever a non-empty username parameter was present,
and loses the configured cookie whenever the request carried at most one
cookie of that name; any forwarded request shares exactly this scrubbed
query and cookie state.  A password parameter without a username, a
credential parameter with an empty first value, and duplicate
configured-name cookies beyond the first survive. -/
theorem c3_scrub_guarantees (cfg : Config) (r : Request)
    (hAU : cfg.authorizationQueryParam ≠ cfg.usernameQueryParam) :
    queryGet (scrubbedRequest cfg r).queryParams
      cfg.authorizationQueryParam = "" ∧
    queryGet (scrubbedRequest cfg r).queryParams
      cfg.usernameQueryParam = "" ∧
    (queryGet r.queryParams cfg.usernameQueryParam ≠ "" →
      queryGet (scrubbedRequest cfg r).queryParams
        cfg.passwordQueryParam = "") ∧
    (countCookie r.cookies cfg.cookieName ≤ 1 →
      findCookie (scrubbedRequest cfg r).cookies cfg.cookieName = none) ∧
    (∀ fr, (serveHTTP cfg r).forwarded = some fr →
      fr.queryParams = (scrubbedRequest cfg r).queryParams ∧
      fr.cookies = (scrubbedRequest cfg r).cookies) := by
  have hqp : (scrubbedRequest cfg r).queryParams =
      (afterQueryScrub cfg r).queryParams :=
    (scrubCookie_frame cfg (afterQueryScrub cfg r)).2.1
  have hcookies : (afterQueryScrub cfg r).cookies = r.cookies :=
    (afterQueryScrub_frame cfg r).2.1
  refine ⟨?_, ?_, ?_, ?_, ?_⟩
  · rw [show (scrubbedRequest cfg r).queryParams =
        (afterQueryScrub cfg r).queryParams from hqp]
    exact afterQueryScrub_get_auth cfg r
  · rw [show (scrubbedRequest cfg r).queryParams =
        (afterQueryScrub cfg r).queryParams from hqp]
    exact afterQueryScrub_get_username cfg r
  · intro hU
    rw [show (scrubbedRequest cfg r).queryParams =
        (afterQueryScrub cfg r).queryParams from hqp]
    exact afterQueryScrub_get_password cfg r hAU hU
  · intro hcount
    cases hf : findCookie r.cookies cfg.cookieName with
    | none =>
      have hsc : (scrubbedRequest cfg r).cookies = r.cookies := by
        unfold scrubbedRequest
        rw [scrubCookie_of_find_none (by rw [hcookies]; exact hf)]
        exact hcookies
      rw [hsc]
      exact hf
    | some v =>
      have hsc : (scrubbedRequest cfg r).cookies =
          removeFirstCookie r.cookies cfg.cookieName := by
        unfold scrubbedRequest
        rw [scrubCookie_of_find_some
          (show findCookie (afterQueryScrub cfg r).cookies cfg.cookieName =
            some v by rw [hcookies]; exact hf)]
        simp [hcookies]
      rw [hsc, findCookie_eq_none_iff]
      have h1 := countCookie_removeFirst r.cookies cfg.cookieName hf
      omega
  · intro fr hfr
    cases hh : hasAuthHeader r with
    | true =>
      rw [serveHTTP_of_hasAuth hh] at hfr
      simp only [Option.some.injEq] at hfr
      rw [← hfr]
      exact ⟨rfl, rfl⟩
    | false =>
      by_cases hcond : queryCred cfg r ≠ "" ∧ queryCred cfg r ≠ cookieCred cfg r
      · rw [serveHTTP_of_redirect hh hcond.1 hcond.2] at hfr
        simp at hfr
      · have hq : queryCred cfg r = "" ∨ queryCred cfg r = cookieCred cfg r := by
          by_cases hz : queryCred cfg r = ""
          · exact Or.inl hz
          · push_neg at hcond
            exact Or.inr (hcond hz)
        rw [serveHTTP_of_forward hh hq] at hfr
        simp only [Option.some.injEq] at hfr
        rw [← hfr]
        by_cases hcc : cookieCred cfg r ≠ ""
        · rw [if_pos hcc]
          exact ⟨rfl, rfl⟩
        · rw [if_neg hcc]
          exact ⟨rfl, rfl⟩

/-- Witness for the amended C3 at a concrete request. -/
theorem c3_scrub_guarantees_witness :
    CreateConfig.authorizationQueryParam ≠ CreateConfig.usernameQueryParam ∧
    queryGet (scrubbedRequest CreateConfig reqAuthParam).queryParams
      CreateConfig.authorizationQueryParam = "" ∧
    (countCookie reqAuthParam.cookies CreateConfig.cookieName ≤ 1 →
      findCookie (scrubbedRequest CreateConfig reqAuthParam).cookies
        CreateConfig.cookieName = none) := by
  refine ⟨by decide, ?_, ?_⟩
  · exact (c3_scrub_guarantees CreateConfig reqAuthParam (by decide)).1
  · exact (c3_scrub_guarantees CreateConfig reqAuthParam (by decide)).2.2.2.1

/-- C4 counterexample: a request that already carries a non-empty
Authorization header and whose query holds only a password parameter is
forwarded with that credential parameter still present in its URL, so
not all configured credential query parameters are stripped. -/
theorem c4_password_survives_despite_header :
    hasAuthHeader reqHeaderPasswordOnly = true ∧
    (serveHTTP CreateConfig reqHeaderPasswordOnly).forwarded.map
      (fun fr => queryGet fr.queryParams CreateConfig.passwordQueryParam) =
      some "secret" := by
  exact ⟨by decide, by decide⟩

/-- C4 (amended): a request that already carries a non-empty
Authorization header is forwarded with no response written, with the
header values untouched (no mismatch check against the other carriers),
and with the same scrubbing as every other branch applied to the
forwarded request: the authorization and username parameters read
empty, the password parameters are gone whenever a non-empty username
parameter was present, the first configured-name cookie is removed, and
the configured cookie is gone entirely whenever at most one cookie of
that name was present.  A password parameter without a username and
duplicate configured-name cookies beyond the first survive. -/
theorem c4_header_precedence (cfg : Config) (r : Request)
    (hh : hasAuthHeader r = true)
    (hAU : cfg.authorizationQueryParam ≠ cfg.usernameQueryParam) :
    serveHTTP cfg r =
      { response := {}, forwarded := some (scrubbedRequest cfg r) } ∧
    (scrubbedRequest cfg r).authHeaderVals = r.authHeaderVals ∧
    queryGet (scrubbedRequest cfg r).queryParams
      cfg.authorizationQueryParam = "" ∧
    queryGet (scrubbedRequest cfg r).queryParams
      cfg.usernameQueryParam = "" ∧
    (queryGet r.queryParams cfg.usernameQueryParam ≠ "" →
      queryGet (scrubbedRequest cfg r).queryParams
        cfg.passwordQueryParam = "") ∧
    (countCookie r.cookies cfg.cookieName ≤ 1 →
      findCookie (scrubbedRequest cfg r).cookies cfg.cookieName = none) ∧
    (∀ v, findCookie r.cookies cfg.cookieName = some v →
      (scrubbedRequest cfg r).cookies =
        removeFirstCookie r.cookies cfg.cookieName) := by
  have hqp : (scrubbedRequest cfg r).queryParams =
      (afterQueryScrub cfg r).queryParams :=
    (scrubCookie_frame cfg (afterQueryScrub cfg r)).2.1
  have hcookies : (afterQueryScrub cfg r).cookies = r.cookies :=
    (afterQueryScrub_frame cfg r).2.1
  have hauth : (scrubbedRequest cfg r).authHeaderVals = r.authHeaderVals := by
    have h1 : (scrubbedRequest cfg r).authHeaderVals =
        (afterQueryScrub cfg r).authHeaderVals :=
      (scrubCookie_frame cfg (afterQueryScrub cfg r)).1
    rw [h1]
    exact (afterQueryScrub_frame cfg r).1
  have hremove : ∀ v, findCookie r.cookies cfg.cookieName = some v →
      (scrubbedRequest cfg r).cookies =
        removeFirstCookie r.cookies cfg.cookieName := by
    intro v hv
    unfold scrubbedRequest
    rw [scrubCookie_of_find_some
      (show findCookie (afterQueryScrub cfg r).cookies cfg.cookieName =
        some v by rw [hcookies]; exact hv)]
    simp [hcookies]
  refine ⟨serveHTTP_of_hasAuth hh, hauth, ?_, ?_, ?_, ?_, hremove⟩
  · rw [show (scrubbedRequest cfg r).queryParams =
        (afterQueryScrub cfg r).queryParams from hqp]
    exact afterQueryScrub_get_auth cfg r
  · rw [show (scrubbedRequest cfg r).queryParams =
        (afterQueryScrub cfg r).queryParams from hqp]
    exact afterQueryScrub_get_username cfg r
  · intro hU
    rw [show (scrubbedRequest cfg r).queryParams =
        (afterQueryScrub cfg r).queryParams from hqp]
    exact afterQueryScrub_get_password cfg r hAU hU
  · intro hcount
    cases hf : findCookie r.cookies cfg.cookieName with
    | none =>
      have hsc : (scrubbedRequest cfg r).cookies = r.cookies := by
        unfold scrubbedRequest
        rw [scrubCookie_of_find_none (by rw [hcookies]; exact hf)]
        exact hcookies
      rw [hsc]
      exact hf
    | some v =>
      rw [hremove v hf, findCookie_eq_none_iff]
      have h1 := countCookie_removeFirst r.cookies cfg.cookieName hf
      omega

/-- Witness for the amended C4 at a request with all three carriers
populated. -/
theorem c4_header_precedence_witness :
    (hasAuthHeader reqAllCarriers = true ∧
      CreateConfig.authorizationQueryParam ≠
        CreateConfig.usernameQueryParam) ∧
    serveHTTP CreateConfig reqAllCarriers =
      { response := {}
        forwarded := some (scrubbedRequest CreateConfig reqAllCarriers) } ∧
    (scrubbedRequest CreateConfig reqAllCarriers).authHeaderVals =
      reqAllCarriers.authHeaderVals ∧
    (countCookie reqAllCarriers.cookies CreateConfig.cookieName ≤ 1 →
      findCookie (scrubbedRequest CreateConfig reqAllCarriers).cookies
        CreateConfig.cookieName = none) := by
  refine ⟨⟨by decide, by decide⟩, ?_, ?_, ?_⟩
  · exact (c4_header_precedence CreateConfig reqAllCarriers
      (by decide) (by decide)).1
  · exact (c4_header_precedence CreateConfig reqAllCarriers
      (by decide) (by decide)).2.1
  · exact (c4_header_precedence CreateConfig reqAllCarriers
      (by decide) (by decide)).2.2.2.2.2.1

/-- C5: with no non-empty Authorization header and a query credential
that is empty or equal to the cookie credential, the filter writes no
response and forwards; a non-empty cookie credential is appended to the
Authorization header with exactly one `Basic ` prefix (the credential
itself is prefix-free), so equal query and cookie credentials are
promoted rather than dropped. -/
theorem c5_cookie_promotion (cfg : Config) (r : Request)
    (hh : hasAuthHeader r = false)
    (hq : queryCred cfg r = "" ∨ queryCred cfg r = cookieCred cfg r) :
    (serveHTTP cfg r).response = {} ∧
    (serveHTTP cfg r).forwarded = some
      (if cookieCred cfg r ≠ "" then
        { scrubbedRequest cfg r with authHeaderVals :=
            (scrubbedRequest cfg r).authHeaderVals ++
              [withPrefix (cookieCred cfg r)] }
      else scrubbedRequest cfg r) ∧
    withPrefix (cookieCred cfg r) = basicPrefix ++ cookieCred cfg r ∧
    ¬ basicData <+: (cookieCred cfg r).data := by
  rw [serveHTTP_of_forward hh hq]
  exact ⟨rfl, rfl, rfl,
    cookieCredOf_prefixFree cfg (afterQueryScrub cfg r)⟩

/-- Witness for C5 at a request with equal non-empty query and cookie
credentials. -/
theorem c5_cookie_promotion_witness :
    (hasAuthHeader reqEqualQueryCookie = false ∧
      queryCred CreateConfig reqEqualQueryCookie =
        cookieCred CreateConfig reqEqualQueryCookie) ∧
    (serveHTTP CreateConfig reqEqualQueryCookie).forwarded = some
      (if cookieCred CreateConfig reqEqualQueryCookie ≠ "" then
        { scrubbedRequest CreateConfig reqEqualQueryCookie with
            authHeaderVals :=
              (scrubbedRequest CreateConfig reqEqualQueryCookie).authHeaderVals
                ++ [withPrefix (cookieCred CreateConfig reqEqualQueryCookie)] }
      else scrubbedRequest CreateConfig reqEqualQueryCookie) := by
  refine ⟨⟨by decide, by decide⟩, ?_⟩
  exact (c5_cookie_promotion CreateConfig reqEqualQueryCookie
    (by decide) (Or.inr (by decide))).2.1

/-- C6: when the authorization parameter and the username/password
parameters both yield non-empty credentials that differ, the
authorization-parameter credential is the extracted one, any Set-Cookie
written carries it, and the pass terminates without any error status:
the only statuses ever written are none or 307. -/
theorem c6_auth_param_wins (cfg : Config) (r : Request)
    (hAU : cfg.authorizationQueryParam ≠ cfg.usernameQueryParam)
    (hA : queryGet r.queryParams cfg.authorizationQueryParam ≠ "")
    (haRes : newEncodedAuthWithoutPrefix
      (queryGet r.queryParams cfg.authorizationQueryParam) ≠ "")
    (hU : queryGet r.queryParams cfg.usernameQueryParam ≠ "")
    (hdiff : newEncodedAuthWithoutPrefix
        (queryGet r.queryParams cfg.authorizationQueryParam) ≠
      encodeAuthWithoutPrefix
        (queryGet (queryDel r.queryParams cfg.authorizationQueryParam)
          cfg.usernameQueryParam)
        (queryGet (queryDel r.queryParams cfg.authorizationQueryParam)
          cfg.passwordQueryParam)) :
    queryCred cfg r = newEncodedAuthWithoutPrefix
      (queryGet r.queryParams cfg.authorizationQueryParam) ∧
    ((serveHTTP cfg r).response.status = none ∨
      (serveHTTP cfg r).response.status = some 307) ∧
    (∀ c, (serveHTTP cfg r).response.setCookie = some c →
      c.value = newEncodedAuthWithoutPrefix
        (queryGet r.queryParams cfg.authorizationQueryParam)) := by
  have h2 : queryGet (queryDel r.queryParams cfg.authorizationQueryParam)
      cfg.usernameQueryParam ≠ "" := by
    rw [queryGet_queryDel_ne _ (Ne.symm hAU)]
    exact hU
  have hcred : queryCred cfg r = newEncodedAuthWithoutPrefix
      (queryGet r.queryParams cfg.authorizationQueryParam) := by
    simp [queryCred, scrubQuery_auth_user hA h2, haRes]
  refine ⟨hcred, serveHTTP_status_none_or_307 cfg r, ?_⟩
  intro c hc
  rw [← hcred]
  exact serveHTTP_setCookie_value cfg r c hc

/-- Witness for C6 at a request with mismatched credential sources. -/
theorem c6_auth_param_wins_witness :
    (queryGet reqMismatch.queryParams CreateConfig.authorizationQueryParam
        ≠ "" ∧
      queryGet reqMismatch.queryParams CreateConfig.usernameQueryParam
        ≠ "") ∧
    queryCred CreateConfig reqMismatch = newEncodedAuthWithoutPrefix
      (queryGet reqMismatch.queryParams
        CreateConfig.authorizationQueryParam) := by
  refine ⟨⟨by decide, by decide⟩, ?_⟩
  exact (c6_auth_param_wins CreateConfig reqMismatch (by decide) (by decide)
    (by decide) (by decide) (by decide)).1

/-- C7 (code bug): the Set-Cookie written by the redirect carries an
empty Path field — the source sets no `Path` on the cookie literal and
`Config` has no cookie-path field — although the repository's readme
documents a `CookiePath` option defaulting to `/` and the test suite
compares the emitted cookie's path against `config.CookiePath`. -/
theorem c7_redirect_cookie_path_empty :
    (serveHTTP CreateConfig reqAuthParam).response.setCookie = some
      { name := "traefik-authhack"
        value := "dGVzdHVzZXJuYW1lOnRlc3RwYXNzd29yZA=="
        path := ""
        domain := ""
        secure := true
        httpOnly := true
        sameSiteStrict := true } := by decide

end AuthHack
